import Mathlib

/-!
Verification development for the wasm thread-pool executor in
`src/src/pool.rs`. Pure control flow and counting behaviour of the pool is
embedded shallowly: machine integers are `Nat`, fallible steps are `Option`
or `Except`, the external worker-provisioning collaborator is an oracle,
and the per-task wake/park state machine (`crate::unpark_mutex`, whose file
is not part of the sources here) is modelled from the specification.
-/

namespace WasmExecutor

/-- From `ThreadPool::max_threads` (src/src/pool.rs lines 156-164): the pool
size handed to `ThreadPool::new` is computed as
`std::cmp::min(HARDWARE_CONCURRENCY, 1)` from the platform concurrency hint. -/
def max_threads_pool_size (h : Nat) : Nat := Nat.min h 1

/-- Result of polling a future, `futures_task::Poll` specialised to `()`. -/
inductive PollRes
  | pending
  | ready
  deriving DecidableEq, Repr

/-- The run-queue message type `Message` (src/src/pool.rs lines 203-206), with
the `Run` payload abstracted to a task identifier of type `τ`. -/
inductive Message (τ : Type)
  | Run (t : τ)
  | Close
  deriving DecidableEq, Repr

/-- Modelled from the spec: the state set of the per-task wake/park state
machine `UnparkMutex` of `crate::unpark_mutex` (the file is not among the
sources; spec sections 3 and 4.4-4.5). `done` is the terminal `Complete`
state of the spec. In `parked` the machine stores the task value itself. -/
inductive UState (τ : Type)
  | idle
  | polling
  | repoll
  | parked (t : τ)
  | done
  deriving DecidableEq, Repr

variable {τ : Type}

/-- Modelled from the spec: `UnparkMutex::start_poll` is legal only from
`Idle` and transitions to `Polling`; `none` models the fatal abort on an
illegal state (spec section 4.4 step 1, section 7). -/
def UState.start_poll : UState τ → Option (UState τ)
  | .idle => some .polling
  | _ => none

/-- Modelled from the spec: `UnparkMutex::complete` transitions to the
terminal `Complete` state unconditionally, from any state (spec 4.4 step 3). -/
def UState.complete : UState τ → UState τ := fun _ => .done

/-- Modelled from the spec: `UnparkMutex::wait task` (spec 4.4 step 4).
From `Polling` the task is parked and the caller released (`Ok`, second
component `none`); from `Repoll` the machine returns to `Polling` and hands
the task back for an immediate re-poll (`Err task`, second component
`some task`). Other states are illegal (fatal). -/
def UState.wait (t : τ) : UState τ → Option (UState τ × Option τ)
  | .polling => some (.parked t, none)
  | .repoll => some (.polling, some t)
  | _ => none

/-- Modelled from the spec: `UnparkMutex::notify` (spec 4.5). From
`Parked t` the task is extracted (`some t`) and the machine becomes `Idle`;
from `Polling` the machine records the race by moving to `Repoll`; from
`Idle`, `Repoll` and `Complete` it is a no-op. -/
def UState.notify : UState τ → UState τ × Option τ
  | .parked t => (.idle, some t)
  | .polling => (.repoll, none)
  | s => (s, none)

/-- From `ArcWake for WakeHandle` (src/src/pool.rs lines 279-286): call
`notify`; on `Ok(task)` send `Run(task)` to the run queue, on `Err(())` do
nothing. Returns the new machine state and the list of enqueued messages. -/
def wake_by_ref (s : UState τ) : UState τ × List (Message τ) :=
  match s.notify with
  | (s2, some t) => (s2, [Message.Run t])
  | (s2, none) => (s2, [])

/-- The poll loop of `Task::run` (src/src/pool.rs lines 241-277). The future
is abstracted to a script: each entry gives the next poll result together
with whether a wake was delivered between that poll returning and the call
to `wait` (the repoll race). The result is the final machine state, the
number of polls performed, the run-queue messages produced by those raced
wakes, and whether `complete` was reached; `none` models a fatal abort from
an illegal `wait`. An empty script means the loop would poll a future past
its script, which no theorem below relies on. -/
def driveLoop : List (PollRes × Bool) → UState Unit →
    Option (UState Unit × Nat × List (Message Unit) × Bool)
  | [], s => some (s, 0, [], false)
  | (PollRes.ready, _) :: _, s => some (s.complete, 1, [], true)
  | (PollRes.pending, raced) :: rest, s =>
    let w := if raced then wake_by_ref s else (s, [])
    match UState.wait () w.1 with
    | some (s2, none) => some (s2, 1, w.2, false)
    | some (s2, some _) =>
      (driveLoop rest s2).map fun r => (r.1, r.2.1 + 1, w.2 ++ r.2.2.1, r.2.2.2)
    | none => none

/-- `Task::run` in full: `start_poll` on the wake/park machine, then the
poll loop. -/
def taskRun (script : List (PollRes × Bool)) (s : UState Unit) :
    Option (UState Unit × Nat × List (Message Unit) × Bool) :=
  (UState.start_poll s).bind (driveLoop script)

/-- Number of task values held inside the wake/park machine itself: one in
`parked`, zero elsewhere. -/
def UState.holds : UState τ → Nat
  | .parked _ => 1
  | _ => 0

/-- Global configuration of one spawned task, for the ownership analysis of
`Task::run` plus `wake_by_ref`: the wake/park machine state, the number of
`Run` messages for this task sitting in the run queue, and the number of
worker threads currently holding (polling) the task value. -/
structure TaskConfig where
  u : UState Unit
  inQueue : Nat
  atWorker : Nat
  deriving DecidableEq, Repr

/-- Interleaved transitions of a single task, taken from the source:
a worker dequeues a `Run` message and calls `start_poll` (legal only from
`Idle`); a poll returns `Ready` and the worker calls `complete` and drops
the task; a `Pending` poll with `wait` from `Polling` parks the task; `wait`
from `Repoll` hands the task back to the same worker; and `wake_by_ref` may
fire at any time from any thread, enqueuing whatever `notify` extracts. -/
inductive TaskStep : TaskConfig → TaskConfig → Prop
  | dequeue (q w : Nat) :
      TaskStep ⟨UState.idle, q + 1, w⟩ ⟨UState.polling, q, w + 1⟩
  | pollReady (u : UState Unit) (q w : Nat) :
      TaskStep ⟨u, q, w + 1⟩ ⟨UState.done, q, w⟩
  | pollPark (q w : Nat) :
      TaskStep ⟨UState.polling, q, w + 1⟩ ⟨UState.parked (), q, w⟩
  | pollRepoll (q w : Nat) :
      TaskStep ⟨UState.repoll, q, w + 1⟩ ⟨UState.polling, q, w + 1⟩
  | wake (c : TaskConfig) :
      TaskStep c ⟨(wake_by_ref c.u).1, c.inQueue + (wake_by_ref c.u).2.length,
        c.atWorker⟩

/-- A task configuration reachable from the moment of spawning: machine
`Idle`, one `Run` message queued, no worker holding the task. -/
def TaskReachable (c : TaskConfig) : Prop :=
  Relation.ReflTransGen TaskStep ⟨UState.idle, 1, 0⟩ c

/-- Total number of places currently holding the task value: queued copies,
worker copies, and the parked copy inside the machine. -/
def taskLive (c : TaskConfig) : Nat := c.inQueue + c.atWorker + c.u.holds

/-- Handle lifecycle events of `ThreadPool`: `Clone for ThreadPool`
(src/src/pool.rs lines 33-40) and `Drop for ThreadPool` (lines 42-50). -/
inductive HandleOp
  | clone
  | drop
  deriving DecidableEq, Repr

/-- One handle event against the live-handle counter `cnt`. `clone` does
`fetch_add 1`; `drop` does `fetch_sub 1` and, when the fetched (old) value
was 1, enqueues `size` `Close` messages. Returns the new counter and the
number of `Close` messages enqueued. -/
def handleStep (size cnt : Nat) : HandleOp → Nat × Nat
  | .clone => (cnt + 1, 0)
  | .drop => (cnt - 1, if cnt = 1 then size else 0)

/-- Run a list of handle events; returns the final counter and the total
number of `Close` messages enqueued. -/
def runOps (size cnt : Nat) : List HandleOp → Nat × Nat
  | [] => (cnt, 0)
  | op :: rest =>
    let s := handleStep size cnt op
    let r := runOps size s.1 rest
    (r.1, s.2 + r.2)

/-- A handle-event list is valid from counter `cnt` when every event is
performed by a holder of a live handle: both `clone` and `drop` require at
least one live handle. -/
def validOps : Nat → List HandleOp → Bool
  | _, [] => true
  | cnt, HandleOp.clone :: rest => decide (1 ≤ cnt) && validOps (cnt + 1) rest
  | cnt, HandleOp.drop :: rest => decide (1 ≤ cnt) && validOps (cnt - 1) rest

/-- The worker loops of `PoolState::work` (src/src/pool.rs lines 220-228),
sequentialised: `running` workers repeatedly pop the head of the shared FIFO
under the `rx` mutex; a `Run` message is serviced and the worker keeps
going, a `Close` message stops the popping worker. Returns the list of
popped messages in pop order and the part of the queue never popped. -/
def workAll : Nat → List (Message τ) → List (Message τ) × List (Message τ)
  | 0, q => ([], q)
  | _ + 1, [] => ([], [])
  | r + 1, Message.Run t :: q =>
    let p := workAll (r + 1) q
    (Message.Run t :: p.1, p.2)
  | r + 1, Message.Close :: q =>
    let p := workAll r q
    (Message.Close :: p.1, p.2)

/-- The error type of the polymorphic spawn interface
(`futures_task::SpawnError`); its only inhabitant is the shutdown error. -/
inductive SpawnErr
  | shutdown
  deriving DecidableEq, Repr

/-- From `ThreadPool::spawn_obj_ok` (src/src/pool.rs lines 169-179): wrap
the future into a task and send `Run(task)` to the run queue. The channel
send cannot fail while the pool state (which owns the receiver) is alive,
so the enqueue is total. -/
def spawn_obj_ok (q : List (Message τ)) (t : τ) : List (Message τ) :=
  q ++ [Message.Run t]

/-- From `Spawn for ThreadPool` (src/src/pool.rs lines 52-57): `spawn_obj`
calls `spawn_obj_ok` and returns `Ok(())`. -/
def spawn_obj (q : List (Message τ)) (t : τ) :
    Except SpawnErr (List (Message τ)) :=
  Except.ok (spawn_obj_ok q t)

/-- Counting state of the pool: the number of user-visible handles, the
number of in-flight tasks (queued, parked or mid-poll), and the value of
the shared counter `PoolState.cnt`. -/
structure PoolCount where
  handles : Nat
  tasks : Nat
  cnt : Nat
  deriving DecidableEq, Repr

/-- Counter-relevant events: `spawnEv` is `spawn_obj_ok`, which clones the
handle twice (once into `Task.exec`, once into `WakeHandle.exec`, lines
169-179); `cloneEv` and `dropEv` are user handle clone and drop; `doneEv`
is the completion of an in-flight task, dropping both embedded handles in
sequence. -/
inductive PoolEv
  | spawnEv
  | cloneEv
  | dropEv
  | doneEv
  deriving DecidableEq, Repr

/-- One counter event. Each handle drop does `fetch_sub 1` and triggers the
`Close` fan-out exactly when the fetched (old) counter value was 1; task
completion performs two such drops in sequence. Returns the new state and
the number of `Close` messages enqueued by the event. -/
def poolStep (size : Nat) (s : PoolCount) : PoolEv → PoolCount × Nat
  | .spawnEv => (⟨s.handles, s.tasks + 1, s.cnt + 2⟩, 0)
  | .cloneEv => (⟨s.handles + 1, s.tasks, s.cnt + 1⟩, 0)
  | .dropEv => (⟨s.handles - 1, s.tasks, s.cnt - 1⟩, if s.cnt = 1 then size else 0)
  | .doneEv => (⟨s.handles, s.tasks - 1, s.cnt - 2⟩,
      (if s.cnt = 1 then size else 0) + (if s.cnt - 1 = 1 then size else 0))

/-- An event is valid when its actor exists: spawning and cloning are done
through some live handle (user handle or a handle embedded in a task),
dropping requires a user handle, completion requires an in-flight task. -/
def validEv (s : PoolCount) : PoolEv → Bool
  | .spawnEv => decide (1 ≤ s.handles + s.tasks)
  | .cloneEv => decide (1 ≤ s.handles + s.tasks)
  | .dropEv => decide (1 ≤ s.handles)
  | .doneEv => decide (1 ≤ s.tasks)

/-- Run a list of counter events; returns the final state and the total
number of `Close` messages enqueued along the way. -/
def runEvs (size : Nat) (s : PoolCount) : List PoolEv → PoolCount × Nat
  | [] => (s, 0)
  | ev :: rest =>
    let p := poolStep size s ev
    let r := runEvs size p.1 rest
    (r.1, p.2 + r.2)

/-- Validity of a whole event list from a starting state. The state part of
`poolStep` does not depend on the pool size, so size 0 is passed here. -/
def validEvs (s : PoolCount) : List PoolEv → Bool
  | [] => true
  | ev :: rest => validEv s ev && validEvs (poolStep 0 s ev).1 rest

/-- Failure oracle for the external worker-provisioning steps performed for
worker `idx` inside `ThreadPool::new` (src/src/pool.rs lines 134-151):
`Worker::new_with_options` (line 140), the module/memory `post_message`
(line 148), and the state-pointer `post_message` (line 150). -/
structure WorkerOracle where
  newWorkerFails : Nat → Bool
  postModuleFails : Nat → Bool
  postStateFails : Nat → Bool

/-- The three fallible provisioning steps for one worker, in source order. -/
inductive ProvStage
  | newW
  | postModule
  | postState
  deriving DecidableEq, Repr

/-- First failing provisioning step for worker `i`, if any, in the order the
source performs them. -/
def stepFails (o : WorkerOracle) (i : Nat) : Option ProvStage :=
  if o.newWorkerFails i then some ProvStage.newW
  else if o.postModuleFails i then some ProvStage.postModule
  else if o.postStateFails i then some ProvStage.postState
  else none

/-- Observable outcome of `ThreadPool::new`. `startedWorkers` counts worker
contexts actually created; `fullyInit` those that received both messages
and hence eventually run `worker_entry_point` and the worker loop;
`leakedContexts` counts contexts created but never handed the state
pointer, which therefore never enter the worker loop, never observe a
`Close` and never terminate; `leakedArcs` counts `Arc::into_raw` references
(line 149) never reclaimed by `worker_entry_point`; `closesEnqueued` is the
number of `Close` messages enqueued when, on the error return, the local
pool value is dropped and its counter falls from 1 to 0. -/
structure NewOutcome where
  ok : Bool
  startedWorkers : Nat
  fullyInit : Nat
  leakedContexts : Nat
  leakedArcs : Nat
  closesEnqueued : Nat
  deriving DecidableEq, Repr

/-- The provisioning loop of `ThreadPool::new`: worker index `i` with `rem`
iterations left. On a failure the `?` operator returns the error; nothing
tears the already-created workers down, and dropping the local pool value
enqueues `size` `Close` messages via `Drop for ThreadPool`. -/
def newLoop (o : WorkerOracle) (size : Nat) : Nat → Nat → NewOutcome
  | i, 0 => ⟨true, i, i, 0, 0, 0⟩
  | i, rem + 1 =>
    match stepFails o i with
    | none => newLoop o size (i + 1) rem
    | some ProvStage.newW => ⟨false, i, i, 0, 0, size⟩
    | some ProvStage.postModule => ⟨false, i + 1, i, 1, 0, size⟩
    | some ProvStage.postState => ⟨false, i + 1, i, 1, 1, size⟩

/-- `ThreadPool::new size` (src/src/pool.rs lines 122-153) under a
provisioning oracle. -/
def threadPoolNew (o : WorkerOracle) (size : Nat) : NewOutcome :=
  newLoop o size 0 size

lemma driveLoop_pending_true (l : List (PollRes × Bool)) :
    driveLoop ((PollRes.pending, true) :: l) UState.polling
      = (driveLoop l UState.polling).map
          fun r => (r.1, r.2.1 + 1, r.2.2.1, r.2.2.2) := by
  cases h : driveLoop l UState.polling <;>
    simp [driveLoop, wake_by_ref, UState.notify, UState.wait, h]

lemma driveLoop_repoll (k : Nat) (l : List (PollRes × Bool)) :
    driveLoop (List.replicate k (PollRes.pending, true) ++ l) UState.polling
      = (driveLoop l UState.polling).map
          fun r => (r.1, r.2.1 + k, r.2.2.1, r.2.2.2) := by
  induction k with
  | zero => cases h : driveLoop l UState.polling <;> simp [h]
  | succ n ih =>
    rw [List.replicate_succ, List.cons_append, driveLoop_pending_true, ih]
    cases h : driveLoop l UState.polling with
    | none => simp
    | some r => simp; omega

/-- C3: in a drive cycle of `Task::run`, a `Ready` poll result leads to
`complete` (terminal state, flag `true`) with no further poll of that
future, after exactly one poll per preceding raced `Pending`; each raced
`Pending` (machine found in `Repoll` at `wait`) re-polls on the same thread
and enqueues no run-queue message; an unraced `Pending` parks the task. In
both outcomes the message list produced by the cycle is empty. -/
theorem task_drive_cycle (k : Nat) (b : Bool) (rest : List (PollRes × Bool)) :
    taskRun (List.replicate k (PollRes.pending, true) ++ (PollRes.ready, b) :: rest)
        UState.idle
      = some (UState.done, k + 1, [], true) ∧
    taskRun (List.replicate k (PollRes.pending, true) ++ (PollRes.pending, false) :: rest)
        UState.idle
      = some (UState.parked (), k + 1, [], false) := by
  constructor <;>
    simp [taskRun, UState.start_poll, driveLoop_repoll, driveLoop, UState.wait,
      UState.complete, Nat.add_comm]

/-- C4: `wake_by_ref` enqueues the parked task exactly once (and it is the
only state from which anything is enqueued, leaving the machine `Idle`);
from `Idle`, `Repoll` and `Complete` nothing is enqueued; `Complete` is
absorbing: a wake leaves it unchanged, and neither `start_poll` nor `wait`
can act on it, so a completed task is never re-enqueued or re-polled. -/
theorem wake_by_ref_parked_only (τ2 : Type) (t u : τ2) (s : UState τ2) :
    wake_by_ref (UState.parked t) = (UState.idle, [Message.Run t]) ∧
    wake_by_ref (UState.idle : UState τ2) = (UState.idle, []) ∧
    wake_by_ref (UState.repoll : UState τ2) = (UState.repoll, []) ∧
    wake_by_ref (UState.done : UState τ2) = (UState.done, []) ∧
    (Message.Run u ∈ (wake_by_ref s).2 →
      s = UState.parked u ∧ (wake_by_ref s).1 = UState.idle) ∧
    UState.start_poll (UState.done : UState τ2) = none ∧
    UState.wait t (UState.done : UState τ2) = none := by
  refine ⟨rfl, rfl, rfl, rfl, ?_, rfl, rfl⟩
  cases s <;> simp [wake_by_ref, UState.notify]
  intro h
  simp [h]

/-- C8: the spawn path never fails: `spawn_obj` always returns the success
value, and `spawn_obj_ok` (the always-succeeds entry point) enqueues the
task as one `Run` message. -/
theorem spawn_always_succeeds (τ2 : Type) (q : List (Message τ2)) (t : τ2) :
    spawn_obj q t = Except.ok (q ++ [Message.Run t]) ∧
    spawn_obj_ok q t = q ++ [Message.Run t] :=
  ⟨rfl, rfl⟩

/-- C10: `ThreadPool::new 0` succeeds without starting any execution
context; spawning on such a pool still enqueues a `Run` message; dropping
the last handle enqueues zero `Close` messages; and with zero workers
nothing in the queue is ever serviced. -/
theorem new_zero_workers (o : WorkerOracle) (τ2 : Type) (q : List (Message τ2)) (t : τ2) :
    threadPoolNew o 0 = ⟨true, 0, 0, 0, 0, 0⟩ ∧
    spawn_obj_ok q t = q ++ [Message.Run t] ∧
    handleStep 0 1 HandleOp.drop = (0, 0) ∧
    workAll 0 q = ([], q) := by
  refine ⟨rfl, rfl, rfl, ?_⟩
  simp [workAll]

/-- C1: evidence of the bug in `ThreadPool::max_threads`. The code passes
`min(hint, 1)` to `new`, so a concurrency hint of 4 yields a pool of 1
worker instead of the claimed `max(4, 1) = 4`, and a hint of 0 yields 0
workers, below the claimed floor of 1. -/
theorem max_threads_ignores_hint :
    max_threads_pool_size 4 = 1 ∧
    max_threads_pool_size 4 ≠ Nat.max 4 1 ∧
    max_threads_pool_size 0 = 0 ∧
    (∀ h : Nat, max_threads_pool_size h ≤ 1) := by
  refine ⟨rfl, by decide, rfl, ?_⟩
  intro h
  simp [max_threads_pool_size]

lemma taskStep_live {c c2 : TaskConfig} (h : TaskStep c c2)
    (hle : taskLive c ≤ 1) : taskLive c2 ≤ 1 := by
  cases h with
  | dequeue q w => simp [taskLive, UState.holds] at *; omega
  | pollReady u q w =>
    cases u <;> simp [taskLive, UState.holds] at * <;> omega
  | pollPark q w => simp [taskLive, UState.holds] at *; omega
  | pollRepoll q w => exact hle
  | wake c =>
    cases hu : c.u <;>
      simp [taskLive, UState.holds, wake_by_ref, UState.notify, hu] at hle ⊢ <;>
      omega

lemma taskReachable_live (c : TaskConfig)
    (h : Relation.ReflTransGen TaskStep ⟨UState.idle, 1, 0⟩ c) :
    taskLive c ≤ 1 := by
  induction h with
  | refl => decide
  | tail _ hstep ih => exact taskStep_live hstep ih

/-- C7: mutual exclusion of polling. In every configuration reachable from
a freshly spawned task, at most one worker thread holds (is polling) the
task value: ownership of the `Task` value is required for
`start_poll`/`wait`, and `notify` never extracts a task out of `Polling`. -/
theorem task_polled_by_at_most_one_thread (c : TaskConfig)
    (h : TaskReachable c) : c.atWorker ≤ 1 := by
  have hl := taskReachable_live c h
  simp [taskLive] at hl
  omega

/-- C7 witness: the configuration after one worker dequeues a fresh task is
reachable, and there at most one thread is polling. -/
theorem task_polled_witness :
    (⟨UState.polling, 0, 1⟩ : TaskConfig).atWorker ≤ 1 :=
  task_polled_by_at_most_one_thread ⟨UState.polling, 0, 1⟩
    (Relation.ReflTransGen.single (TaskStep.dequeue 0 0))

lemma validOps_zero {ops : List HandleOp} (h : validOps 0 ops = true) :
    ops = [] := by
  cases ops with
  | nil => rfl
  | cons op rest => cases op <;> simp [validOps] at h

lemma runOps_fanout (size : Nat) (ops : List HandleOp) :
    ∀ cnt, 1 ≤ cnt → validOps cnt ops = true →
      (runOps size cnt ops).2 = if (runOps size cnt ops).1 = 0 then size else 0 := by
  induction ops with
  | nil =>
    intro cnt h1 _
    have hne : cnt ≠ 0 := by omega
    simp [runOps, hne]
  | cons op rest ih =>
    intro cnt h1 hv
    cases op with
    | clone =>
      simp [validOps] at hv
      simpa [runOps, handleStep] using ih (cnt + 1) (by omega) hv.2
    | drop =>
      simp [validOps] at hv
      rcases Nat.lt_or_ge cnt 2 with h2 | h2
      · have hc : cnt = 1 := by omega
        subst hc
        have hrest := validOps_zero hv.2
        subst hrest
        simp [runOps, handleStep]
      · have hne : cnt ≠ 1 := by omega
        simpa [runOps, handleStep, hne] using ih (cnt - 1) (by omega) hv.2

/-- C5: the `Close` fan-out of `Drop for ThreadPool` fires exactly once.
A drop that sees a counter of at least 2 enqueues nothing; the drop that
sees counter 1 enqueues exactly `size` `Close` messages; and over any valid
sequence of clone and drop events starting from the single handle of a
fresh pool, the total number of `Close` messages is `size` if the counter
reached zero and 0 otherwise. -/
theorem close_fanout_exactly_once (size cnt : Nat) (ops : List HandleOp)
    (hv : validOps 1 ops = true) (hc : 2 ≤ cnt) :
    (handleStep size cnt HandleOp.drop).2 = 0 ∧
    (handleStep size 1 HandleOp.drop).2 = size ∧
    (runOps size 1 ops).2 = if (runOps size 1 ops).1 = 0 then size else 0 := by
  refine ⟨?_, by simp [handleStep], runOps_fanout size ops 1 (by omega) hv⟩
  have hne : cnt ≠ 1 := by omega
  simp [handleStep, hne]

/-- C5 witness: one clone and two drops on a 3-worker pool bring the
counter to zero and enqueue exactly 3 `Close` messages, with the non-final
drop enqueuing none. -/
theorem close_fanout_witness :
    (handleStep 3 2 HandleOp.drop).2 = 0 ∧
    (handleStep 3 1 HandleOp.drop).2 = 3 ∧
    (runOps 3 1 [HandleOp.clone, HandleOp.drop, HandleOp.drop]).2 =
      if (runOps 3 1 [HandleOp.clone, HandleOp.drop, HandleOp.drop]).1 = 0
      then 3 else 0 :=
  close_fanout_exactly_once 3 2 [HandleOp.clone, HandleOp.drop, HandleOp.drop]
    (by decide) (by decide)

lemma workAll_partition (r : Nat) (q : List (Message τ)) :
    (workAll r q).1 ++ (workAll r q).2 = q := by
  induction q generalizing r with
  | nil => cases r <;> simp [workAll]
  | cons m rest ih =>
    cases r with
    | zero => simp [workAll]
    | succ n => cases m <;> simp [workAll, ih]

lemma workAll_runs (r : Nat) (runs : List τ) (tl : List (Message τ)) :
    workAll (r + 1) (runs.map Message.Run ++ tl)
      = (runs.map Message.Run ++ (workAll (r + 1) tl).1, (workAll (r + 1) tl).2) := by
  induction runs with
  | nil => simp
  | cons t ts ih => simp [workAll, ih]

lemma workAll_closes (s : Nat) :
    workAll s (List.replicate s (Message.Close : Message τ))
      = (List.replicate s Message.Close, []) := by
  induction s with
  | zero => simp [workAll]
  | succ n ih => simp [List.replicate_succ, workAll, ih]

/-- C6: the shared FIFO never skips or duplicates — for any worker count
the popped messages followed by the never-popped remainder reproduce the
queue exactly, so every served message is served once, in enqueue order —
and shutdown preserves queued work: with `size ≥ 1` workers draining a
queue of `K` `Run` messages followed by the `size` `Close` messages of the
shutdown fan-out, every `Run` is popped (all of them before any `Close`,
as the popped list shows) and nothing is left behind. -/
theorem run_queue_fifo_shutdown (τ2 : Type) (runs : List τ2) (size r : Nat)
    (q : List (Message τ2)) (h : 1 ≤ size) :
    (workAll r q).1 ++ (workAll r q).2 = q ∧
    workAll size (runs.map Message.Run ++ List.replicate size Message.Close)
      = (runs.map Message.Run ++ List.replicate size Message.Close,
        ([] : List (Message τ2))) := by
  refine ⟨workAll_partition r q, ?_⟩
  obtain ⟨s, rfl⟩ : ∃ s, size = s + 1 := ⟨size - 1, by omega⟩
  rw [workAll_runs, workAll_closes]

/-- C6 witness: one worker drains two `Run` messages and the single `Close`
of a 1-worker pool in enqueue order, and with zero workers the queue is
left intact (partition instance). -/
theorem run_queue_fifo_witness :
    (workAll 0 [(Message.Close : Message Nat)]).1 ++
        (workAll 0 [(Message.Close : Message Nat)]).2 = [Message.Close] ∧
    workAll 1 (([0, 1] : List Nat).map Message.Run ++
        List.replicate 1 Message.Close)
      = (([0, 1] : List Nat).map Message.Run ++ List.replicate 1 Message.Close,
        ([] : List (Message Nat))) :=
  run_queue_fifo_shutdown Nat [0, 1] 1 0 [Message.Close] (by decide)

lemma poolStep_state (size size2 : Nat) (s : PoolCount) (ev : PoolEv) :
    (poolStep size s ev).1 = (poolStep size2 s ev).1 := by
  cases ev <;> rfl

lemma runEvs_inv (size : Nat) (evs : List PoolEv) :
    ∀ s : PoolCount, s.cnt = s.handles + 2 * s.tasks → validEvs s evs = true →
      (runEvs size s evs).1.cnt
        = (runEvs size s evs).1.handles + 2 * (runEvs size s evs).1.tasks := by
  induction evs with
  | nil =>
    intro s hs _
    simpa [runEvs] using hs
  | cons ev rest ih =>
    intro s hs hv
    simp [validEvs] at hv
    have hv2 : validEvs (poolStep size s ev).1 rest = true := by
      rw [poolStep_state size 0]
      exact hv.2
    have hstep : (poolStep size s ev).1.cnt
        = (poolStep size s ev).1.handles + 2 * (poolStep size s ev).1.tasks := by
      cases ev <;> simp [poolStep, validEv] at hv ⊢ <;> omega
    simpa [runEvs] using ih (poolStep size s ev).1 hstep hv2

/-- C9: every spawn clones the pool handle twice (into the task and into
its wake handle), so along any valid event trace from a fresh pool the
counter always equals user handles plus twice the in-flight tasks. Hence
with a task in flight the counter is at least 2, any handle drop performed
then enqueues no `Close`, and an event can trigger the `Close` fan-out only
when it brings the counter to zero, which requires zero in-flight tasks
afterwards. -/
theorem spawned_handles_guard_shutdown (size : Nat) (evs : List PoolEv)
    (ev : PoolEv) (s : PoolCount)
    (hs : s = (runEvs size ⟨1, 0, 1⟩ evs).1)
    (hv : validEvs ⟨1, 0, 1⟩ evs = true) :
    s.cnt = s.handles + 2 * s.tasks ∧
    (poolStep size s PoolEv.spawnEv).1.cnt = s.cnt + 2 ∧
    (1 ≤ s.tasks → 2 ≤ s.cnt) ∧
    (1 ≤ s.tasks → (poolStep size s PoolEv.dropEv).2 = 0) ∧
    (validEv s ev = true → (poolStep size s ev).2 ≠ 0 →
      (poolStep size s ev).1.cnt = 0 ∧ (poolStep size s ev).1.tasks = 0) := by
  have hinv : s.cnt = s.handles + 2 * s.tasks := by
    rw [hs]
    exact runEvs_inv size evs ⟨1, 0, 1⟩ (by simp) hv
  refine ⟨hinv, by simp [poolStep], by omega, ?_, ?_⟩
  · intro ht
    have hne : s.cnt ≠ 1 := by omega
    simp [poolStep, hne]
  · intro hev hne
    cases ev with
    | spawnEv => simp [poolStep] at hne
    | cloneEv => simp [poolStep] at hne
    | dropEv =>
      simp [validEv] at hev
      by_cases hc : s.cnt = 1
      · simp [poolStep, hc] at hne ⊢
        omega
      · simp [poolStep, hc] at hne
    | doneEv =>
      simp [validEv] at hev
      have h2 : 2 ≤ s.cnt := by omega
      have hc1 : s.cnt ≠ 1 := by omega
      by_cases hc : s.cnt = 2
      · simp [poolStep, hc] at hne ⊢
        omega
      · have hc2 : s.cnt - 1 ≠ 1 := by omega
        simp [poolStep, hc1, hc2] at hne

/-- C9 witness: after one spawn on a fresh pool the state is one handle,
one task, counter 3; the counter equation holds, a drop there enqueues
nothing, and the stated fan-out implications hold at that state. -/
theorem spawned_handles_witness :
    (⟨1, 1, 3⟩ : PoolCount).cnt
        = (⟨1, 1, 3⟩ : PoolCount).handles + 2 * (⟨1, 1, 3⟩ : PoolCount).tasks ∧
    (poolStep 3 ⟨1, 1, 3⟩ PoolEv.spawnEv).1.cnt = (⟨1, 1, 3⟩ : PoolCount).cnt + 2 ∧
    (1 ≤ (⟨1, 1, 3⟩ : PoolCount).tasks → 2 ≤ (⟨1, 1, 3⟩ : PoolCount).cnt) ∧
    (1 ≤ (⟨1, 1, 3⟩ : PoolCount).tasks →
      (poolStep 3 ⟨1, 1, 3⟩ PoolEv.dropEv).2 = 0) ∧
    (validEv ⟨1, 1, 3⟩ PoolEv.doneEv = true →
      (poolStep 3 ⟨1, 1, 3⟩ PoolEv.doneEv).2 ≠ 0 →
      (poolStep 3 ⟨1, 1, 3⟩ PoolEv.doneEv).1.cnt = 0 ∧
      (poolStep 3 ⟨1, 1, 3⟩ PoolEv.doneEv).1.tasks = 0) :=
  spawned_handles_guard_shutdown 3 [PoolEv.spawnEv] PoolEv.doneEv ⟨1, 1, 3⟩
    (by decide) (by decide)

lemma newLoop_fail (o : WorkerOracle) (size : Nat) :
    ∀ rem i, i + rem = size → (newLoop o size i rem).ok = false →
      (newLoop o size i rem).closesEnqueued = size ∧
      (newLoop o size i rem).leakedContexts ≤ 1 ∧
      (newLoop o size i rem).leakedArcs ≤ (newLoop o size i rem).leakedContexts ∧
      (newLoop o size i rem).fullyInit + (newLoop o size i rem).leakedContexts
        = (newLoop o size i rem).startedWorkers ∧
      (newLoop o size i rem).fullyInit ≤ size := by
  intro rem
  induction rem with
  | zero =>
    intro i hi h
    simp [newLoop] at h
  | succ n ih =>
    intro i hi h
    cases hf : stepFails o i with
    | none =>
      simp only [newLoop, hf] at h ⊢
      exact ih (i + 1) (by omega) h
    | some st =>
      cases st <;> simp [newLoop, hf] <;> omega

/-- C2 counterexample: with one worker whose state-pointer `post_message`
fails, `ThreadPool::new` returns the error but the already-created worker
context never receives the pool-state pointer, never runs the worker loop
and is never terminated, and the `Arc` reference turned into a raw pointer
for it is never reclaimed: a started execution context and shared pool
state are leaked, not torn down. -/
theorem create_leaks_on_post_failure :
    (threadPoolNew ⟨fun _ => false, fun _ => false, fun _ => true⟩ 1).ok = false ∧
    (threadPoolNew ⟨fun _ => false, fun _ => false, fun _ => true⟩ 1).leakedContexts = 1 ∧
    (threadPoolNew ⟨fun _ => false, fun _ => false, fun _ => true⟩ 1).leakedArcs = 1 :=
  ⟨rfl, rfl, rfl⟩

/-- C2 (amended): when `create` fails it returns the error, and the only
cleanup is indirect: dropping the local pool handle enqueues `size` `Close`
messages, so every fully-initialized worker eventually pops one and exits;
but nothing tears workers down directly — at most one context (the one
whose initialization messages failed to send) is leaked, together with at
most that many raw pool-state references. -/
theorem create_failure_cleanup (o : WorkerOracle) (size : Nat)
    (h : (threadPoolNew o size).ok = false) :
    (threadPoolNew o size).closesEnqueued = size ∧
    (threadPoolNew o size).leakedContexts ≤ 1 ∧
    (threadPoolNew o size).leakedArcs ≤ (threadPoolNew o size).leakedContexts ∧
    (threadPoolNew o size).fullyInit + (threadPoolNew o size).leakedContexts
      = (threadPoolNew o size).startedWorkers ∧
    (threadPoolNew o size).fullyInit ≤ size :=
  newLoop_fail o size size 0 (by omega) h

/-- C2 witness: the amended statement evaluated at the single-worker pool
whose state-pointer message fails. -/
theorem create_failure_witness :
    (threadPoolNew ⟨fun _ => false, fun _ => false, fun _ => true⟩ 1).closesEnqueued = 1 ∧
    (threadPoolNew ⟨fun _ => false, fun _ => false, fun _ => true⟩ 1).leakedContexts ≤ 1 ∧
    (threadPoolNew ⟨fun _ => false, fun _ => false, fun _ => true⟩ 1).leakedArcs ≤
      (threadPoolNew ⟨fun _ => false, fun _ => false, fun _ => true⟩ 1).leakedContexts ∧
    (threadPoolNew ⟨fun _ => false, fun _ => false, fun _ => true⟩ 1).fullyInit +
        (threadPoolNew ⟨fun _ => false, fun _ => false, fun _ => true⟩ 1).leakedContexts
      = (threadPoolNew ⟨fun _ => false, fun _ => false, fun _ => true⟩ 1).startedWorkers ∧
    (threadPoolNew ⟨fun _ => false, fun _ => false, fun _ => true⟩ 1).fullyInit ≤ 1 :=
  create_failure_cleanup ⟨fun _ => false, fun _ => false, fun _ => true⟩ 1 rfl

end WasmExecutor
